import Mathlib

/- A shallow embedding of the fonsole networking layer (src/networking.js and
src/client/index.js): the process-wide room registry, Room membership and
message fan-out, the Connection protocol handlers, and the client-side event
mirror, together with theorems about room lifecycle, id assignment, password
gating, room-code generation and once-only event subscriptions.

Connections are identified by their index in a global pool (`ServerState.conns`);
a socket emission to a client is recorded by appending the message to that
client's `inbox`. The registry `rooms` is the module-level `rooms` object of
networking.js, modelled as an association list from room name to room state. -/

/-- JS-style association lookup, `obj[key]`. -/
def assocFind {κ α : Type} [DecidableEq κ] : List (κ × α) → κ → Option α
  | [], _ => none
  | (k, v) :: rest, key => if k = key then some v else assocFind rest key

/-- JS-style keyed assignment, `obj[key] = v`: replaces the binding when the key
is present, otherwise adds it. -/
def assocSet {κ α : Type} [DecidableEq κ] : List (κ × α) → κ → α → List (κ × α)
  | [], key, v => [(key, v)]
  | (k, w) :: rest, key, v =>
    if k = key then (key, v) :: rest else (k, w) :: assocSet rest key v

/-- JS `delete obj[key]`. -/
def assocDelete {κ α : Type} [DecidableEq κ] : List (κ × α) → κ → List (κ × α)
  | [], _ => []
  | (k, w) :: rest, key =>
    if k = key then assocDelete rest key else (k, w) :: assocDelete rest key

/-- Applies `f` to the element at index `i`, leaving the list unchanged when the
index is out of range. -/
def updateAt {α : Type} : List α → Nat → (α → α) → List α
  | [], _, _ => []
  | a :: rest, 0, f => f a :: rest
  | a :: rest, n + 1, f => a :: updateAt rest n f

/-- The `room:status` reply object as built by `Connection.openRoom` and
`Connection.joinRoom` in networking.js (the fields those sites ever set);
a bare `socket.emit('room:status')` carries no payload and is modelled as
`Msg.roomStatus none`. The join reply's `connections` dictionary is keyed by
`connection.id`, which can be `undefined` (hence `Option Int` keys). -/
structure StatusPayload where
  error : Option String := none
  connectionId : Option Int := none
  roomName : Option String := none
  connections : Option (List (Option Int × String)) := none
  deriving DecidableEq

/-- The socket events the server emits to a client in the flows under
verification: `room:status`, `connections:join` (new id and session) and
`connections:disconnect` (departed id). -/
inductive Msg where
  | roomStatus (payload : Option StatusPayload)
  | connJoin (id : Int) (session : String)
  | connDisconnect (id : Int)
  deriving DecidableEq

/-- The mutable state of a `Room` (networking.js): optional password, the host
connection, and the `clientConnections` array whose slots hold guest
connections or `undefined` (`none`). The room name is the registry key; the
`game` field is not modelled (no verified claim touches `setGame`). -/
structure RoomState where
  password : Option String
  host : Nat
  clients : List (Option Nat)
  deriving DecidableEq

/-- The mutable state of a `Connection`: its id inside the current room
(`-1` when unjoined), the room it references, its session token, and the log
of messages emitted to its socket. -/
structure ConnState where
  connectionId : Int
  room : Option String
  session : String
  inbox : List Msg
  deriving DecidableEq

instance : Inhabited ConnState := ⟨⟨-1, none, "", []⟩⟩

/-- The process-wide state: the `rooms` registry and the pool of connections. -/
structure ServerState where
  rooms : List (String × RoomState)
  conns : List ConnState
  deriving DecidableEq

/-- Registry lookup, `rooms[name]`. -/
def ServerState.lookupRoom (st : ServerState) (name : String) : Option RoomState :=
  assocFind st.rooms name

/-- Registry update, `rooms[name] = room` for an already drawn name. -/
def updateRoomState (st : ServerState) (name : String) (r : RoomState) : ServerState :=
  { st with rooms := assocSet st.rooms name r }

/-- The connection object at index `cid` of the pool (call sites always hold a
live reference, so the default is never observable in the embedded flows). -/
def connOf (st : ServerState) (cid : Nat) : ConnState :=
  (st.conns.get? cid).getD default

/-- Replaces connection `cid`'s state by `f` of it. -/
def setConn (st : ServerState) (cid : Nat) (f : ConnState → ConnState) : ServerState :=
  { st with conns := updateAt st.conns cid f }

/-- `client.socket.emit(...)`: appends a message to the client's inbox. -/
def sendTo (st : ServerState) (cid : Nat) (msg : Msg) : ServerState :=
  setConn st cid (fun c => { c with inbox := c.inbox ++ [msg] })

/-- `connection.session` of the client at index `cid`. -/
def sessionOf (st : ServerState) (cid : Nat) : String :=
  ((st.conns.get? cid).map ConnState.session).getD ""

/-- `Room.getClientById` (networking.js line 130): id 0 returns the host;
any other id returns `clientConnections[id + 1]`, which is `undefined` when the
index is negative, out of range, or an emptied slot. The source keeps the
`id + 1` read even though `join` stores the member that received id `k` at
index `k - 1`. -/
def Room.getClientById (r : RoomState) (id : Int) : Option Nat :=
  if id = 0 then some r.host
  else
    let idx := id + 1
    if idx < 0 then none
    else
      match r.clients.get? idx.toNat with
      | some (some cid) => some cid
      | _ => none

/-- The `connectionId` / `exceptId` argument of `Room.emit`: a number, an array
of numbers, or null/undefined. -/
inductive EmitArg where
  | num (i : Int)
  | arr (l : List Int)
  | null
  deriving DecidableEq

/-- The `checkConnection` test of `Room.emit`'s everyone branch. When `exceptId`
is an array the client is skipped iff its `connectionId` is in it; when
`exceptId` is null/undefined or -1 the event is always sent. When `exceptId` is
any other number, the source guards with `exceptType === 'number'` where
`exceptType` is `typeof except` - `except` is an undeclared identifier (a typo
for `exceptId`), so `exceptType` is the string 'undefined', the guard is never
true, and no client receives the event. -/
def exceptAllows (st : ServerState) (exc : EmitArg) (cid : Nat) : Bool :=
  match exc with
  | .arr l => decide ((connOf st cid).connectionId ∉ l)
  | .null => true
  | .num k => decide (k = -1)

/-- The everyone branch of `Room.emit`: iterates the non-null entries of
`clientConnections`, then the host, sending to each client that
`checkConnection` lets through. -/
def Room.emitEveryone (st : ServerState) (r : RoomState) (exc : EmitArg) (msg : Msg) : ServerState :=
  let recipients := r.clients.filterMap (fun x => x) ++ [r.host]
  recipients.foldl (fun s cid => if exceptAllows s exc cid then sendTo s cid msg else s) st

/-- `Room.emit` (networking.js line 146): a numeric `connectionId` other than
-1 targets one client (silently dropped when unresolved); an array targets each
resolved member of it; null/undefined or -1 fans out to everyone subject to
`exceptId` (see `exceptAllows`). The room is the registry entry under `name`. -/
def Room.emit (st : ServerState) (name : String) (target : EmitArg) (exc : EmitArg) (msg : Msg) : ServerState :=
  match st.lookupRoom name with
  | none => st
  | some r =>
    match target with
    | .num i =>
      if i = -1 then Room.emitEveryone st r exc msg
      else
        match Room.getClientById r i with
        | some cid => sendTo st cid msg
        | none => st
    | .arr l =>
      l.foldl (fun s j =>
        match Room.getClientById r j with
        | some cid => sendTo s cid msg
        | none => s) st
    | .null => Room.emitEveryone st r exc msg

/-- `Room.join` (networking.js line 74): throws `RoomError`
('error_room_wrong_password') when a password is set and differs from the one
supplied; otherwise pushes the client onto `clientConnections`, takes the new
array length as the client's id, and emits `connections:join` to everyone with
the new id as `exceptId`. The registry lookup mirrors the call site
`rooms[roomName].join(...)`; its `none` case cannot be reached because
`Connection.joinRoom` checks `roomName in rooms` first. -/
def Room.join (st : ServerState) (name : String) (cid : Nat) (password : Option String) : Except String (ServerState × Int) :=
  match st.lookupRoom name with
  | none => Except.error "error_room_not_exists"
  | some r =>
    if r.password ≠ none ∧ r.password ≠ password then
      Except.error "error_room_wrong_password"
    else
      let clients := r.clients ++ [some cid]
      let id : Int := clients.length
      let st₁ := updateRoomState st name { r with clients := clients }
      let st₂ := Room.emit st₁ name (.num (-1)) (.num id) (.connJoin id (sessionOf st cid))
      Except.ok (st₂, id)

/-- `Room.getClientConnections` (networking.js line 95): folds the non-null
members into a dictionary `acc[connection.id] = connection.session`. The source
reads `connection.id`, a field `Connection` never defines (the id is stored in
`connectionId`), so every key is `undefined` (`none`) and successive members
overwrite one another. -/
def Room.getClientConnections (st : ServerState) (r : RoomState) : List (Option Int × String) :=
  (r.clients.filterMap (fun x => x)).foldl (fun acc cid => assocSet acc none (sessionOf st cid)) []

/-- JS sparse-array assignment `clientConnections[i] = undefined`: a negative
index adds an invisible property (no array change); an index below the length
clears the slot; an index at or beyond the length grows the array to `i + 1`
with holes. -/
def setSlot (l : List (Option Nat)) (i : Int) : List (Option Nat) :=
  if i < 0 then l
  else
    let n := i.toNat
    if n < l.length then l.set n none
    else l ++ List.replicate (n + 1 - l.length) none

/-- `Room.removeConnection` (networking.js line 112): clears slot
`clientConnections[connectionId]` and, when the departing id is not the host's
0, emits `connections:disconnect` to everyone with no exclusion. -/
def Room.removeConnection (st : ServerState) (name : String) (id : Int) : ServerState :=
  match st.lookupRoom name with
  | none => st
  | some r =>
    let st₁ := updateRoomState st name { r with clients := setSlot r.clients id }
    if id ≠ 0 then Room.emit st₁ name (.num (-1)) .null (.connDisconnect id) else st₁

/-- `Connection.leaveRoom` (networking.js line 422), fuelled for the mutual
recursion with `Room.dispose`: when in a room it removes its own id from the
room, disposes the room when that id is 0 (the dispose body is inlined here:
kick every client in a snapshot of the non-null slots, then delete the registry
entry - see `Room.dispose`), resets `connectionId` and `room`, and finally
sends the caller a bare `room:status` when `notify` is set. Any fuel at least
2 is exact for the source's call depth (host leave → dispose → guest leave). -/
def Connection.leaveRoom : Nat → ServerState → Nat → Bool → ServerState
  | 0, st, _, _ => st
  | fuel + 1, st, cid, notify =>
    let c := connOf st cid
    if c.connectionId = -1 then st
    else
      match c.room with
      | none => st
      | some name =>
        let st₁ := Room.removeConnection st name c.connectionId
        let st₂ :=
          if c.connectionId = 0 then
            match st₁.lookupRoom name with
            | none => st₁
            | some r =>
              let present := r.clients.filterMap (fun x => x)
              let st' := present.foldl (fun s k => Connection.leaveRoom fuel s k true) st₁
              { st' with rooms := assocDelete st'.rooms name }
          else st₁
        let st₃ := setConn st₂ cid (fun cc => { cc with connectionId := -1, room := none })
        if notify then sendTo st₃ cid (Msg.roomStatus none) else st₃

/-- `Room.dispose` (networking.js line 202): calls `leaveRoom(true)` on every
client in a snapshot of the non-null slots, then deletes the room from the
registry. `Connection.leaveRoom` inlines this body in its host branch. -/
def Room.dispose (fuel : Nat) (st : ServerState) (name : String) : ServerState :=
  match st.lookupRoom name with
  | none => st
  | some r =>
    let present := r.clients.filterMap (fun x => x)
    let st' := present.foldl (fun s k => Connection.leaveRoom fuel s k true) st
    { st' with rooms := assocDelete st'.rooms name }

/-- The room-name argument of `Connection.openRoom` / `Connection.joinRoom`: a
JS string, or a non-string value of which only JS truthiness matters. -/
inductive RoomNameArg where
  | str (s : String)
  | other (truthy : Bool)
  deriving DecidableEq

/-- JS truthiness of the room-name argument (the empty string is falsy). -/
def truthyArg : RoomNameArg → Bool
  | .str s => s != ""
  | .other t => t

/-- `typeof roomName === 'string'`. -/
def isStringArg : RoomNameArg → Bool
  | .str _ => true
  | .other _ => false

/-- The string carried by a `RoomNameArg` known to be a string. -/
def argString : RoomNameArg → String
  | .str s => s
  | .other _ => ""

/-- `Connection.joinRoom` (networking.js line 375): no-op returning false when
already in a room; throws a plain `Error` ('Invalid room name', modelled as
`Except.error`, not caught anywhere) for a falsy or non-string name; replies
`room:status {error}` for an unknown room or a `RoomError` thrown by
`Room.join`; on success stores the received id and room reference and replies
`room:status` with the membership dictionary, the id and the room name. -/
def Connection.joinRoom (st : ServerState) (cid : Nat) (arg : RoomNameArg) (password : Option String) : Except String (ServerState × Bool) :=
  if (connOf st cid).connectionId ≠ -1 then Except.ok (st, false)
  else if truthyArg arg && isStringArg arg then
    let name := argString arg
    match st.lookupRoom name with
    | none =>
      Except.ok (sendTo st cid (Msg.roomStatus (some { error := some "error_room_not_exists" })), false)
    | some _ =>
      match Room.join st name cid password with
      | .error msg =>
        Except.ok (sendTo st cid (Msg.roomStatus (some { error := some msg })), false)
      | .ok (st₁, id) =>
        let st₂ := setConn st₁ cid (fun c => { c with connectionId := id, room := some name })
        let st₃ :=
          match st₂.lookupRoom name with
          | some r₁ =>
            sendTo st₂ cid (Msg.roomStatus (some
              { connections := some (Room.getClientConnections st₂ r₁),
                connectionId := some id,
                roomName := some name }))
          | none => st₂
        Except.ok (st₃, true)
  else Except.error "Invalid room name"

/-- `Connection.openRoom` (networking.js line 339): no-op returning false when
already in a room; throws a plain `Error` for a falsy or non-string name; when
the name is taken the `Room` constructor's `RoomError` is caught and reported
as `room:status {error}`; otherwise the room is registered with this connection
as host, the connection takes id 0, and the caller is acknowledged. -/
def Connection.openRoom (st : ServerState) (cid : Nat) (arg : RoomNameArg) (password : Option String) : Except String (ServerState × Bool) :=
  if (connOf st cid).connectionId ≠ -1 then Except.ok (st, false)
  else if truthyArg arg && isStringArg arg then
    let name := argString arg
    match st.lookupRoom name with
    | some _ =>
      Except.ok (sendTo st cid (Msg.roomStatus (some { error := some "error_room_exists" })), false)
    | none =>
      let st₁ := { st with rooms := assocSet st.rooms name { password := password, host := cid, clients := [] } }
      let st₂ := setConn st₁ cid (fun c => { c with connectionId := 0, room := some name })
      Except.ok (sendTo st₂ cid (Msg.roomStatus (some { connectionId := some 0, roomName := some name })), true)
  else Except.error "Invalid room name"

/-- The `socket.on('room:join')` handler (networking.js line 252): returns
silently when already in a room or when the supplied name is falsy; otherwise
calls `joinRoom`, whose thrown `Error` propagates out of the handler uncaught. -/
def handleRoomJoin (st : ServerState) (cid : Nat) (arg : RoomNameArg) (password : Option String) : Except String ServerState :=
  if (connOf st cid).connectionId ≠ -1 then Except.ok st
  else if truthyArg arg then (Connection.joinRoom st cid arg password).map Prod.fst
  else Except.ok st

/-- A handler in the client mirror's local event table (`this.events[event]`):
either a plain `on` callback or the proxy closure that `once` registers, which
runs the callback and then clears its own slot `idx`
(`this.events[event][index] = undefined`). Callbacks are opaque and identified
by a numeric `tag`; an invocation is recorded by its tag. -/
inductive LHandler where
  | plain (tag : Nat)
  | onceProxy (tag : Nat) (idx : Nat)
  deriving DecidableEq

/-- The client-side mirror `NetworkingAPI` (src/client/index.js): the
id-to-session mirror `clientConnections`, the local event table, the
`connectionId` (-1 until joined) and `roomName`. `roomName` is `none` while
still undefined (the constructor never initialises it); the game-scoped event
table is not modelled (no verified claim touches it). -/
structure NetworkingAPI where
  clientConnections : List (Option Int × String) := []
  events : List (String × List (Option LHandler)) := []
  connectionId : Int := -1
  roomName : Option String := none
  deriving DecidableEq

/-- `this.events[event]`, defaulting to the empty array (an absent key and an
empty array are indistinguishable to `localEmit`'s guard and loop). -/
def handlersOf (c : NetworkingAPI) (ev : String) : List (Option LHandler) :=
  (assocFind c.events ev).getD []

/-- `this.events[event][idx] = undefined`, the detach step of the once proxy. -/
def setEventSlot (c : NetworkingAPI) (ev : String) (idx : Nat) : NetworkingAPI :=
  { c with events := assocSet c.events ev ((handlersOf c ev).set idx none) }

/-- `NetworkingAPI.on` (client/index.js line 215): pushes the callback onto the
event's array and returns its index. -/
def NetworkingAPI.on (c : NetworkingAPI) (ev : String) (tag : Nat) : NetworkingAPI × Nat :=
  let l := handlersOf c ev ++ [some (LHandler.plain tag)]
  ({ c with events := assocSet c.events ev l }, l.length - 1)

/-- `NetworkingAPI.once` (client/index.js line 230): registers through `on` a
proxy that calls the callback and then clears its own slot; the captured index
is the position the proxy occupies. -/
def NetworkingAPI.once (c : NetworkingAPI) (ev : String) (tag : Nat) : NetworkingAPI × Nat :=
  let idx := (handlersOf c ev).length
  let l := handlersOf c ev ++ [some (LHandler.onceProxy tag idx)]
  ({ c with events := assocSet c.events ev l }, idx)

/-- The loop body of `NetworkingAPI.localEmit`
(`this.events[event][i].call(this, ...content)`): a slot holding `undefined`
makes the `.call` access throw a TypeError, modelled as `Except.error`; the
fuel is the array length at entry, which clearing slots never changes. Returns
the final mirror state and the tags of the callbacks invoked, in order. -/
def localEmitGo (ev : String) : Nat → NetworkingAPI → Nat → List Nat → Except String (NetworkingAPI × List Nat)
  | 0, c, _, fired => Except.ok (c, fired)
  | fuel + 1, c, i, fired =>
    match (handlersOf c ev).get? i with
    | none => Except.ok (c, fired)
    | some none => Except.error "TypeError"
    | some (some (.plain t)) => localEmitGo ev fuel c (i + 1) (fired ++ [t])
    | some (some (.onceProxy t idx)) =>
      localEmitGo ev fuel (setEventSlot c ev idx) (i + 1) (fired ++ [t])

/-- `NetworkingAPI.localEmit` (client/index.js line 196): calls every
subscribed listener of the event in index order; no-op when the event has no
listener array. -/
def NetworkingAPI.localEmit (c : NetworkingAPI) (ev : String) : Except String (NetworkingAPI × List Nat) :=
  localEmitGo ev (handlersOf c ev).length c 0 []

/-- The test `status.id` in the client's `room:status` handler. No payload the
server ever emits carries an `id` field - networking.js builds `room:status`
objects only out of `error`, `connections`, `connectionId` and `roomName` - so
the property read yields `undefined`, which is falsy. -/
def statusIdTruthy (_p : StatusPayload) : Bool := false

/-- JS truthiness of an optional string field (absent and empty are falsy). -/
def truthyOptStr : Option String → Bool
  | none => false
  | some s => s != ""

/-- The `socket.on('room:status')` handler of the client mirror
(client/index.js line 29). Its guard is `status.roomName && status.id`; since
`status.id` is always undefined (see `statusIdTruthy`) the joined branch is
unreachable and every `room:status` - including the acknowledgements of a
successful open or join - takes the left branch, which clears `roomName`, sets
`connectionId` to -1 and empties the mirror. The joined branch is embedded
anyway: it reads `status.name` (a field the server never sends, hence `none`)
into `roomName`, copies `status.connectionId`, and merges
`status.connections`. The handler finally re-emits the event locally. -/
def NetworkingAPI.handleRoomStatus (c : NetworkingAPI) (p : Option StatusPayload) : Except String (NetworkingAPI × List Nat) :=
  let status := p.getD {}
  let c₁ :=
    if truthyOptStr status.roomName && statusIdTruthy status then
      { c with
        roomName := none,
        connectionId := status.connectionId.getD c.connectionId,
        clientConnections :=
          (status.connections.getD []).foldl (fun acc kv => assocSet acc kv.1 kv.2) c.clientConnections }
    else
      { c with roomName := some "", connectionId := -1, clientConnections := [] }
  c₁.localEmit "room:status"

/-- The decimal-digit string of a natural number, embedding the JS template
stringification `${n}` used by `generateRandomRoomName` (big-endian decimal
digits, no leading zeros for the values produced there). -/
def codeStr (n : Nat) : String :=
  String.mk ((Nat.digits 10 n).reverse.map (fun d => Char.ofNat (48 + d)))

/-- `Networking.generateRandomRoomName` (networking.js line 543):
`Math.floor(Math.random() * (9 * 10^(length-1))) + 10^(length-1)` stringified -
a uniformly random string of exactly `length` decimal digits. The entropy of
one `Math.random()` call is modelled as an arbitrary natural `draw` reduced
modulo the multiplier, which yields exactly the range `[0, multiplier)` of
`Math.floor(Math.random() * multiplier)`. -/
def Networking.generateRandomRoomName (length : Nat) (draw : Nat) : String :=
  let min := 10 ^ (length - 1)
  let multiplier := min * 9
  codeStr (draw % multiplier + min)

/-- The length of the longest key in the registry (0 when empty). -/
def maxCodeLen (rooms : List String) : Nat :=
  rooms.foldr (fun s m => max s.length m) 0

/-- The flattened loop of `Networking.generateEmptyRoomName`: attempt `j` draws
a name of `3 + j / 100` digits (the source retries 100 times per digit length,
starting at 3, growing the length after each 100 failures) and returns the
first name not registered. `draws` is the stream of `Math.random()` outcomes,
one per attempt; the fuel bounds the iterations of the source's unbounded
loop. -/
def Networking.genAux (rooms : List String) (draws : Nat → Nat) : Nat → Nat → Option String
  | 0, _ => none
  | fuel + 1, j =>
    let num := 3 + j / 100
    let name := Networking.generateRandomRoomName num (draws j)
    if name ∈ rooms then Networking.genAux rooms draws fuel (j + 1) else some name

/-- `Networking.generateEmptyRoomName` (networking.js line 557) over a given
registry key set and draw stream. The source loop has no bound; the fuel
supplied here is shown sufficient for every registry and stream
(`C9_generate_empty_room_name`), which is exactly the termination claim. -/
def Networking.generateEmptyRoomName (rooms : List String) (draws : Nat → Nat) : Option String :=
  Networking.genAux rooms draws (100 * maxCodeLen rooms + 1) 0

/-- One step of the claim-C4 experiment on a single room: a join of a fresh
client (through `Room.join`) or a removal (through `Room.removeConnection`). -/
inductive RoomOp where
  | join (cid : Nat)
  | remove (k : Nat)
  deriving DecidableEq

/-- The running state of the claim-C4 experiment: the server state, the ids
returned by the successful joins in order, and a validity flag that records
whether every removal so far targeted an id some earlier join had returned
(the only removals the server ever issues on a live room, via `leaveRoom` of a
joined guest). -/
structure RunAcc where
  st : ServerState
  ids : List Int
  ok : Bool
  deriving DecidableEq

/-- Runs a sequence of join and remove operations against the room registered
under `name`, collecting the ids returned by successful joins. -/
def runRoomOps (name : String) (acc : RunAcc) : List RoomOp → RunAcc
  | [] => acc
  | op :: rest =>
    let acc' :=
      match op with
      | .join cid =>
        match Room.join acc.st name cid none with
        | .ok (st', id) => { st := st', ids := acc.ids ++ [id], ok := acc.ok }
        | .error _ => acc
      | .remove k =>
        { st := Room.removeConnection acc.st name (k : Int),
          ids := acc.ids,
          ok := acc.ok && decide ((k : Int) ∈ acc.ids) }
    runRoomOps name acc' rest

/-- True for a `connections:join` message. -/
def isConnJoin : Msg → Bool
  | .connJoin _ _ => true
  | _ => false

/-- True for a bare `room:status` (the empty room-status that tells a client it
has left its room). -/
def isEmptyStatus : Msg → Bool
  | .roomStatus none => true
  | _ => false

/-- The success flag of an open/join call (`none` when the call threw). -/
def flagOf (e : Except String (ServerState × Bool)) : Option Bool :=
  match e with
  | .ok (_, b) => some b
  | .error _ => none

/-- The registry entry under `name` after an open/join call (`none` when the
call threw). -/
def roomAfterJoin (e : Except String (ServerState × Bool)) (name : String) : Option RoomState :=
  match e with
  | .ok (s, _) => s.lookupRoom name
  | .error _ => none

/-- The server state after an open/join call that is known to return normally
(scenario plumbing; the fallback is never reached in the traces below). -/
def afterOk (e : Except String (ServerState × Bool)) : ServerState :=
  match e with
  | .ok (s, _) => s
  | .error _ => ⟨[], []⟩

/-- Three fresh connections with sessions "a", "b", "c". -/
def connA : ConnState := ⟨-1, none, "a", []⟩

/-- Second fresh connection. -/
def connB : ConnState := ⟨-1, none, "b", []⟩

/-- Third fresh connection. -/
def connC : ConnState := ⟨-1, none, "c", []⟩

/-- A fresh server with an empty registry and three unjoined connections. -/
def srv0 : ServerState := ⟨[], [connA, connB, connC]⟩

/-- Connection 0 has opened room "r" (it is the host, id 0). -/
def srvOpened : ServerState := afterOk (Connection.openRoom srv0 0 (.str "r") none)

/-- Connection 1 has then joined room "r" (receiving id 1). -/
def srvJ1 : ServerState := afterOk (Connection.joinRoom srvOpened 1 (.str "r") none)

/-- Connection 2 has then joined room "r" (receiving id 2). -/
def srvJ2 : ServerState := afterOk (Connection.joinRoom srvJ1 2 (.str "r") none)

/-- The host has then left voluntarily (the `room:leave` path calls
`leaveRoom(true)`; fuel 2 covers the host → dispose → guest call depth). -/
def srvHostLeft : ServerState := Connection.leaveRoom 2 srvJ2 0 true

/-- A server whose room "r" is password-protected ("x"), hosted by connection 0;
connection 1 is unjoined. -/
def srvPw : ServerState :=
  ⟨[("r", ⟨some "x", 0, []⟩)], [⟨0, some "r", "a", []⟩, ⟨-1, none, "b", []⟩]⟩

/-- A server whose room "r" is open (no password), hosted by connection 0;
connection 1 is unjoined. -/
def srvOpen : ServerState :=
  ⟨[("r", ⟨none, 0, []⟩)], [⟨0, some "r", "a", []⟩, ⟨-1, none, "b", []⟩]⟩

/-- A fresh client mirror. -/
def mirror0 : NetworkingAPI := {}

/-- The exact `room:status` payload the server sends to acknowledge a
successful open (networking.js line 360). -/
def openAck : StatusPayload := { connectionId := some 0, roomName := some "r" }

/-- The exact `room:status` payload the server sends to acknowledge a
successful join (networking.js line 405, with the membership dictionary the
buggy `getClientConnections` produces). -/
def joinAck : StatusPayload :=
  { connections := some [(none, "a")], connectionId := some 1, roomName := some "r" }

/-- The client mirror after an emission attempt (scenario plumbing). -/
def clientAfter (e : Except String (NetworkingAPI × List Nat)) : NetworkingAPI :=
  match e with
  | .ok q => q.1
  | .error _ => {}

/-- A fresh mirror on which `once("e", h)` was called, `h` being the callback
with tag 7. -/
def onceClient : NetworkingAPI := (NetworkingAPI.once {} "e" 7).1

/-- The invariant of the claim-C4 experiment: as long as every removal so far
targeted an id returned by an earlier join, the room under `name` exists with
its password still unset, the collected ids are strictly increasing, each lies
between 1 and the current `clientConnections` length, the length is 0 while no
join happened, and the first collected id is 1. -/
def C4Inv (name : String) (acc : RunAcc) : Prop :=
  acc.ok = true →
    ∃ r, acc.st.lookupRoom name = some r ∧ r.password = none ∧
      List.Pairwise (· < ·) acc.ids ∧
      (∀ i ∈ acc.ids, 1 ≤ i ∧ i ≤ (r.clients.length : Int)) ∧
      (acc.ids = [] → r.clients.length = 0) ∧
      (acc.ids ≠ [] → acc.ids.head? = some 1)

/-- Unfolds `connOf` at a pool index known to hold a connection. -/
theorem connOf_eq {st : ServerState} {cid : Nat} {c : ConnState}
    (h : st.conns.get? cid = some c) : connOf st cid = c := by
  unfold connOf
  rw [h]
  rfl

/-- `updateAt` leaves every other index unchanged. -/
theorem updateAt_get?_ne {α : Type} : ∀ (l : List α) (i j : Nat) (f : α → α), j ≠ i →
    (updateAt l i f).get? j = l.get? j
  | [], _, _, _, _ => rfl
  | _ :: _, 0, 0, _, h => absurd rfl h
  | _ :: _, 0, _ + 1, _, _ => rfl
  | _ :: _, _ + 1, 0, _, _ => rfl
  | _ :: t, i + 1, j + 1, f, h => updateAt_get?_ne t i j f (fun e => h (by omega))

/-- A socket emission does not touch the registry. -/
theorem sendTo_rooms (st : ServerState) (cid : Nat) (m : Msg) :
    (sendTo st cid m).rooms = st.rooms := rfl

/-- Folding registry-preserving steps preserves the registry. -/
theorem foldl_rooms {α : Type} (f : ServerState → α → ServerState)
    (hf : ∀ s x, (f s x).rooms = s.rooms) :
    ∀ (l : List α) (st : ServerState), (l.foldl f st).rooms = st.rooms := by
  intro l
  induction l with
  | nil => intro st; rfl
  | cons a t ih => intro st; rw [List.foldl_cons, ih, hf]

/-- Everyone fan-out does not touch the registry. -/
theorem emitEveryone_rooms (st : ServerState) (r : RoomState) (e : EmitArg) (m : Msg) :
    (Room.emitEveryone st r e m).rooms = st.rooms := by
  unfold Room.emitEveryone
  apply foldl_rooms
  intro s x
  by_cases h : exceptAllows s e x
  · simp [h, sendTo_rooms]
  · simp [h]

/-- `Room.emit` does not touch the registry in any of its branches. -/
theorem roomEmit_rooms (st : ServerState) (n : String) (t e : EmitArg) (m : Msg) :
    (Room.emit st n t e m).rooms = st.rooms := by
  unfold Room.emit
  cases hl : st.lookupRoom n with
  | none => rfl
  | some r =>
    cases t with
    | num i =>
      by_cases hi : i = -1
      · simp [hi, emitEveryone_rooms]
      · simp only [hi, if_false]
        cases Room.getClientById r i <;> simp [sendTo_rooms]
    | arr l =>
      apply foldl_rooms
      intro s j
      cases Room.getClientById r j <;> simp [sendTo_rooms]
    | null => simp [emitEveryone_rooms]

/-- Registry lookups are unchanged by `Room.emit`. -/
theorem lookupRoom_roomEmit (st : ServerState) (n : String) (t e : EmitArg) (m : Msg) (name : String) :
    (Room.emit st n t e m).lookupRoom name = st.lookupRoom name := by
  simp [ServerState.lookupRoom, roomEmit_rooms]

/-- Looking up the key just assigned returns the assigned value. -/
theorem assocFind_assocSet_self {κ α : Type} [DecidableEq κ] (l : List (κ × α)) (k : κ) (v : α) :
    assocFind (assocSet l k v) k = some v := by
  induction l with
  | nil => simp [assocSet, assocFind]
  | cons p rest ih =>
    by_cases h : p.1 = k
    · simp [assocSet, h, assocFind]
    · simp [assocSet, h, assocFind, ih]

/-- Registry lookups are unchanged by a socket emission. -/
theorem lookupRoom_sendTo (st : ServerState) (cid : Nat) (m : Msg) (name : String) :
    (sendTo st cid m).lookupRoom name = st.lookupRoom name := rfl

/-- Registry lookups are unchanged by a connection-state update. -/
theorem lookupRoom_setConn (st : ServerState) (cid : Nat) (f : ConnState → ConnState) (name : String) :
    (setConn st cid f).lookupRoom name = st.lookupRoom name := rfl

/-- Looking up the room just written returns it. -/
theorem lookupRoom_updateRoomState_self (st : ServerState) (name : String) (r : RoomState) :
    (updateRoomState st name r).lookupRoom name = some r :=
  assocFind_assocSet_self st.rooms name r

/-- `Room.join` on a room whose password does not reject: the exact success
value, with the new member pushed and the id equal to the new array length. -/
theorem roomJoin_ok {st : ServerState} {name : String} {r : RoomState} (cid : Nat) (pwd : Option String)
    (h : st.lookupRoom name = some r) (hp : ¬(r.password ≠ none ∧ r.password ≠ pwd)) :
    Room.join st name cid pwd =
      Except.ok (Room.emit (updateRoomState st name { r with clients := r.clients ++ [some cid] })
        name (.num (-1)) (.num ((r.clients ++ [some cid]).length : Int))
        (.connJoin ((r.clients ++ [some cid]).length : Int) (sessionOf st cid)),
        ((r.clients ++ [some cid]).length : Int)) := by
  unfold Room.join
  simp only [h, if_neg hp]

/-- `Room.join` with a set password and a different supplied one throws the
wrong-password `RoomError` before mutating anything. -/
theorem roomJoin_wrong_password {st : ServerState} {name : String} {r : RoomState} (cid : Nat)
    {p : String} {pwd : Option String}
    (h : st.lookupRoom name = some r) (hp : r.password = some p) (hne : pwd ≠ some p) :
    Room.join st name cid pwd = Except.error "error_room_wrong_password" := by
  unfold Room.join
  have hcond : r.password ≠ none ∧ r.password ≠ pwd := by
    constructor
    · simp [hp]
    · rw [hp]
      intro e
      exact hne e.symm
  simp only [h, if_pos hcond]

/-- `Room.removeConnection` clears exactly the slot at the removed id. -/
theorem removeConnection_lookup {st : ServerState} {name : String} {r : RoomState} (k : Int)
    (h : st.lookupRoom name = some r) :
    (Room.removeConnection st name k).lookupRoom name = some { r with clients := setSlot r.clients k } := by
  unfold Room.removeConnection
  by_cases hk : k ≠ 0
  · simp only [h, if_pos hk, lookupRoom_roomEmit, lookupRoom_updateRoomState_self]
  · simp only [h, if_neg hk, lookupRoom_updateRoomState_self]

/-- The length of the member array after clearing slot `k`: unchanged when `k`
is inside, grown to `k + 1` when at or beyond the end (JS sparse assignment). -/
theorem setSlot_length_natCast (l : List (Option Nat)) (k : Nat) :
    (setSlot l (k : Int)).length = max l.length (k + 1) := by
  unfold setSlot
  rw [if_neg (by omega)]
  simp only [Int.toNat_natCast]
  by_cases hk : k < l.length
  · rw [if_pos hk, List.length_set]
    omega
  · rw [if_neg hk, List.length_append, List.length_replicate]
    omega

/-- The claim-C4 invariant is preserved by every operation of the experiment. -/
theorem runRoomOps_inv (name : String) : ∀ (ops : List RoomOp) (acc : RunAcc),
    C4Inv name acc → C4Inv name (runRoomOps name acc ops) := by
  intro ops
  induction ops with
  | nil => intro acc h; exact h
  | cons op rest ih =>
    intro acc hacc
    cases op with
    | join cid =>
      cases hj : Room.join acc.st name cid none with
      | error msg =>
        have hstep : runRoomOps name acc (RoomOp.join cid :: rest) = runRoomOps name acc rest := by
          simp [runRoomOps, hj]
        rw [hstep]
        exact ih acc hacc
      | ok pr =>
        obtain ⟨st', id⟩ := pr
        have hstep : runRoomOps name acc (RoomOp.join cid :: rest) =
            runRoomOps name ⟨st', acc.ids ++ [id], acc.ok⟩ rest := by
          simp [runRoomOps, hj]
        rw [hstep]
        apply ih
        intro hok
        obtain ⟨r, hr, hpw, hpair, hbound, hemp, hhead⟩ := hacc hok
        have hp : ¬(r.password ≠ none ∧ r.password ≠ (none : Option String)) := by simp [hpw]
        have hspec := hj.symm.trans (roomJoin_ok cid none hr hp)
        simp only [Except.ok.injEq, Prod.mk.injEq] at hspec
        obtain ⟨hst, hid⟩ := hspec
        have hidv : id = (r.clients.length : Int) + 1 := by
          rw [hid]
          simp only [List.length_append, List.length_singleton]
          push_cast
          ring
        refine ⟨{ r with clients := r.clients ++ [some cid] }, ?_, hpw, ?_, ?_, ?_, ?_⟩
        · rw [hst, lookupRoom_roomEmit, lookupRoom_updateRoomState_self]
        · rw [List.pairwise_append]
          refine ⟨hpair, by simp, ?_⟩
          intro x hx y hy
          rw [List.mem_singleton] at hy
          subst hy
          have := (hbound x hx).2
          rw [hidv]
          omega
        · intro i hi
          simp only [List.length_append, List.length_cons, List.length_nil]
          rcases List.mem_append.mp hi with h | h
          · obtain ⟨ha, hb⟩ := hbound i h
            constructor
            · exact ha
            · push_cast
              omega
          · rw [List.mem_singleton] at h
            subst h
            rw [hidv]
            constructor
            · omega
            · push_cast
              omega
        · intro hnil
          exact absurd hnil (by simp)
        · intro _
          cases hids : acc.ids with
          | nil =>
            have hlen := hemp hids
            show (([] : List Int) ++ [id]).head? = some 1
            rw [List.nil_append, List.head?_cons, hidv, hlen]
            norm_num
          | cons a t =>
            have ha : a = 1 := by
              have := hhead (by rw [hids]; simp)
              rw [hids, List.head?_cons] at this
              exact Option.some.inj this
            show ((a :: t) ++ [id]).head? = some 1
            rw [List.cons_append, List.head?_cons, ha]
    | remove k =>
      have hstep : runRoomOps name acc (RoomOp.remove k :: rest) =
          runRoomOps name ⟨Room.removeConnection acc.st name (k : Int), acc.ids,
            acc.ok && decide ((k : Int) ∈ acc.ids)⟩ rest := by
        simp [runRoomOps]
      rw [hstep]
      apply ih
      intro hok
      rw [Bool.and_eq_true, decide_eq_true_eq] at hok
      obtain ⟨hok', hkmem⟩ := hok
      obtain ⟨r, hr, hpw, hpair, hbound, hemp, hhead⟩ := hacc hok'
      refine ⟨{ r with clients := setSlot r.clients (k : Int) }, removeConnection_lookup _ hr, hpw,
        hpair, ?_, ?_, hhead⟩
      · intro i hi
        obtain ⟨ha, hb⟩ := hbound i hi
        refine ⟨ha, ?_⟩
        simp only [setSlot_length_natCast]
        have : (r.clients.length : Int) ≤ (max r.clients.length (k + 1) : Nat) := by
          push_cast
          omega
        omega
      · intro hnil
        rw [hnil] at hkmem
        exact absurd hkmem (List.not_mem_nil _)

/-- Every registered key is at most as long as the longest one. -/
theorem mem_length_le_maxCodeLen : ∀ {rooms : List String} {s : String},
    s ∈ rooms → s.length ≤ maxCodeLen rooms := by
  intro rooms
  induction rooms with
  | nil => intro s h; cases h
  | cons a t ih =>
    intro s h
    show s.length ≤ max a.length (maxCodeLen t)
    rcases List.mem_cons.mp h with rfl | h'
    · exact le_max_left _ _
    · exact le_trans (ih h') (le_max_right _ _)

/-- The decimal string of a natural has as many characters as its digits. -/
theorem codeStr_length (n : Nat) : (codeStr n).length = (Nat.digits 10 n).length := by
  simp [codeStr, String.length]

/-- A drawn room name has at least the requested number of digits (its value
is at least 10^(length-1)). -/
theorem generateRandomRoomName_length (len : Nat) (h : 1 ≤ len) (d : Nat) :
    len ≤ (Networking.generateRandomRoomName len d).length := by
  unfold Networking.generateRandomRoomName
  rw [codeStr_length]
  have hv : 10 ^ (len - 1) ≤ d % (10 ^ (len - 1) * 9) + 10 ^ (len - 1) := Nat.le_add_left _ _
  have hv0 : d % (10 ^ (len - 1) * 9) + 10 ^ (len - 1) ≠ 0 := by
    have : 0 < 10 ^ (len - 1) := Nat.pos_pow_of_pos _ (by norm_num)
    omega
  rw [Nat.digits_len 10 _ (by norm_num) hv0]
  have hlog : len - 1 ≤ Nat.log 10 (d % (10 ^ (len - 1) * 9) + 10 ^ (len - 1)) :=
    (Nat.pow_le_iff_le_log (by norm_num) hv0).mp hv
  omega

/-- The bounded search of `generateEmptyRoomName` succeeds whenever the fuel
reaches past 100 attempts per digit length up to one more than the longest
registered key: at attempt `j` the length is `3 + j / 100`, and once that
exceeds `maxCodeLen rooms` the draw cannot collide. -/
theorem genAux_succeeds (rooms : List String) (draws : Nat → Nat) :
    ∀ (k j : Nat), 100 * maxCodeLen rooms ≤ j + k →
      ∃ name, Networking.genAux rooms draws (k + 1) j = some name ∧ name ∉ rooms := by
  intro k
  induction k with
  | zero =>
    intro j hj
    have hnotin : Networking.generateRandomRoomName (3 + j / 100) (draws j) ∉ rooms := by
      intro hmem
      have hle := mem_length_le_maxCodeLen hmem
      have hge := generateRandomRoomName_length (3 + j / 100) (by omega) (draws j)
      have hdiv : maxCodeLen rooms ≤ j / 100 := by
        rw [Nat.le_div_iff_mul_le (by norm_num)]
        omega
      omega
    refine ⟨Networking.generateRandomRoomName (3 + j / 100) (draws j), ?_, hnotin⟩
    show (if Networking.generateRandomRoomName (3 + j / 100) (draws j) ∈ rooms then
        Networking.genAux rooms draws 0 (j + 1)
      else some (Networking.generateRandomRoomName (3 + j / 100) (draws j))) = _
    rw [if_neg hnotin]
  | succ k ih =>
    intro j hj
    have hstep : Networking.genAux rooms draws (k + 1 + 1) j =
        (if Networking.generateRandomRoomName (3 + j / 100) (draws j) ∈ rooms then
          Networking.genAux rooms draws (k + 1) (j + 1)
        else some (Networking.generateRandomRoomName (3 + j / 100) (draws j))) := rfl
    by_cases hmem : Networking.generateRandomRoomName (3 + j / 100) (draws j) ∈ rooms
    · rw [hstep, if_pos hmem]
      exact ih (j + 1) (by omega)
    · refine ⟨Networking.generateRandomRoomName (3 + j / 100) (draws j), ?_, hmem⟩
      rw [hstep, if_neg hmem]

/-- C1: the join/resolve round trip fails on the code. In a fresh room, a
successful join admits connection 1 with id 1 (the claim's k = 1, its only
member), and afterwards `getClientById 0` is the host connection - but
`getClientById 1` reads `clientConnections[2]` and returns nothing instead of
the admitted connection, because `join` stores the member of id k at index
k - 1 while `getClientById` reads index k + 1. -/
theorem C1_resolve_after_join :
    (srvJ1.conns.get? 1).map ConnState.connectionId = some 1
    ∧ (srvJ1.lookupRoom "r").map (fun r => Room.getClientById r 0) = some (some 0)
    ∧ (srvJ1.lookupRoom "r").map (fun r => Room.getClientById r 1) = some none :=
  ⟨rfl, rfl, rfl⟩

/-- C2: the member-joined broadcast reaches no one. After connection 1 joins
(id 1, host present) and connection 2 joins (id 2, host and member 1 present),
no inbox - neither the host's nor any member's - holds a `connections:join`
message: `Room.emit`'s everyone branch tests `typeof except` (an undeclared
identifier, typo for `exceptId`), so a numeric exclusion suppresses delivery
to every client instead of just the new member. -/
theorem C2_member_joined_broadcast_lost :
    (srvJ2.conns.get? 1).map ConnState.connectionId = some 1
    ∧ (srvJ2.conns.get? 2).map ConnState.connectionId = some 2
    ∧ (srvJ2.conns.get? 0).map (fun c => c.inbox.filter isConnJoin) = some []
    ∧ (srvJ2.conns.get? 1).map (fun c => c.inbox.filter isConnJoin) = some []
    ∧ (srvJ2.conns.get? 2).map (fun c => c.inbox.filter isConnJoin) = some [] :=
  ⟨rfl, rfl, rfl, rfl, rfl⟩

/-- C3: the host-departure cascade loses the guest with id 1. With host 0 and
guests 1 and 2 in the room, after the host leaves the host and guest 2 are
reset to connectionId -1 with no room reference and an empty room-status in
their inboxes, and the code is gone from the registry - but guest 1 keeps
connectionId 1 and its room reference and receives no empty room-status:
the host's `removeConnection(0)` cleared slot 0, which held guest 1 (the
member of id 1), so `dispose` never kicks it. -/
theorem C3_host_leave_cascade :
    (srvHostLeft.conns.get? 0).map (fun c => (c.connectionId, c.room)) = some (-1, none)
    ∧ (srvHostLeft.conns.get? 2).map (fun c => (c.connectionId, c.room)) = some (-1, none)
    ∧ (srvHostLeft.conns.get? 1).map (fun c => (c.connectionId, c.room)) = some (1, some "r")
    ∧ (srvHostLeft.conns.get? 1).map (fun c => c.inbox.filter isEmptyStatus) = some []
    ∧ (srvHostLeft.conns.get? 0).map (fun c => c.inbox.filter isEmptyStatus) = some [Msg.roomStatus none]
    ∧ (srvHostLeft.conns.get? 2).map (fun c => c.inbox.filter isEmptyStatus) = some [Msg.roomStatus none]
    ∧ srvHostLeft.lookupRoom "r" = none :=
  ⟨rfl, rfl, rfl, rfl, rfl, rfl, rfl⟩

/-- C4: over any sequence of joins and removals on one open room in which
every removal targets an id some earlier join returned, the ids handed out by
the successful joins are strictly increasing (hence pairwise distinct and
never reassigned after a removal), all at least 1, and the first is 1. -/
theorem C4_assigned_ids (st : ServerState) (name : String) (r : RoomState) (ops : List RoomOp)
    (h1 : st.lookupRoom name = some r) (h2 : r.password = none) (h3 : r.clients = [])
    (hok : (runRoomOps name ⟨st, [], true⟩ ops).ok = true) :
    List.Pairwise (· < ·) (runRoomOps name ⟨st, [], true⟩ ops).ids
    ∧ (∀ i ∈ (runRoomOps name ⟨st, [], true⟩ ops).ids, 1 ≤ i)
    ∧ ((runRoomOps name ⟨st, [], true⟩ ops).ids ≠ [] →
        (runRoomOps name ⟨st, [], true⟩ ops).ids.head? = some 1) := by
  have hinv : C4Inv name ⟨st, [], true⟩ := by
    intro _
    refine ⟨r, h1, h2, List.Pairwise.nil, ?_, fun _ => by rw [h3]; rfl, fun h => absurd rfl h⟩
    intro i hi
    exact absurd hi (List.not_mem_nil _)
  obtain ⟨r', _, _, hpair, hbound, _, hhead⟩ := runRoomOps_inv name ops ⟨st, [], true⟩ hinv hok
  exact ⟨hpair, fun i hi => (hbound i hi).1, hhead⟩

/-- C4 witness: on a fresh open room, the run join, remove 1, join returns the
ids 1 and 3, which are strictly increasing. -/
theorem C4_assigned_ids_witness :
    List.Pairwise (· < ·)
      (runRoomOps "r" ⟨srvOpen, [], true⟩ [RoomOp.join 1, RoomOp.remove 1, RoomOp.join 2]).ids :=
  (C4_assigned_ids srvOpen "r" ⟨none, 0, []⟩ [RoomOp.join 1, RoomOp.remove 1, RoomOp.join 2]
    rfl rfl rfl (by decide)).1

/-- C5: a join against a room with a set password and a different supplied
password returns false with exactly one wrong-password `room:status` error
appended to the caller's inbox; the registry (and so the room's membership) is
untouched and every other connection's state is unchanged. -/
theorem C5_wrong_password_atomic (st : ServerState) (cid : Nat) (c : ConnState)
    (name : String) (r : RoomState) (p : String) (pwd : Option String)
    (h1 : st.conns.get? cid = some c) (h2 : c.connectionId = -1)
    (h3 : name ≠ "") (h4 : st.lookupRoom name = some r)
    (h5 : r.password = some p) (h6 : pwd ≠ some p) :
    Connection.joinRoom st cid (RoomNameArg.str name) pwd =
      Except.ok (sendTo st cid (Msg.roomStatus (some { error := some "error_room_wrong_password" })), false)
    ∧ (sendTo st cid (Msg.roomStatus (some { error := some "error_room_wrong_password" }))).rooms = st.rooms
    ∧ ∀ j, j ≠ cid → (sendTo st cid (Msg.roomStatus (some { error := some "error_room_wrong_password" }))).conns.get? j = st.conns.get? j := by
  refine ⟨?_, rfl, ?_⟩
  · unfold Connection.joinRoom
    rw [connOf_eq h1, h2, if_neg (by simp)]
    have ht : (truthyArg (RoomNameArg.str name) && isStringArg (RoomNameArg.str name)) = true := by
      simp [truthyArg, isStringArg, h3]
    rw [if_pos ht]
    simp only [argString, h4, roomJoin_wrong_password cid h4 h5 h6]
  · intro j hj
    exact updateAt_get?_ne st.conns cid j _ hj

/-- C5 witness: joining the password-"x" room with password "y" produces only
the wrong-password reply to the caller. -/
theorem C5_wrong_password_witness :
    Connection.joinRoom srvPw 1 (RoomNameArg.str "r") (some "y") =
      Except.ok (sendTo srvPw 1 (Msg.roomStatus (some { error := some "error_room_wrong_password" })), false) :=
  (C5_wrong_password_atomic srvPw 1 ⟨-1, none, "b", []⟩ "r" ⟨some "x", 0, []⟩ "x" (some "y")
    rfl rfl (by decide) rfl rfl (by decide)).1

/-- C6: the client mirror's connectionId stays -1 on every acknowledgement.
It is -1 initially, and after the exact `room:status` payload the server sends
for a successful open (connectionId 0) or join (connectionId 1) the handler
still leaves it -1: the joined-branch guard tests `status.id`, a field no
server payload carries, so the left branch always runs. -/
theorem C6_mirror_connection_id :
    mirror0.connectionId = -1
    ∧ (mirror0.handleRoomStatus (some openAck)).map (fun q => q.1.connectionId) = Except.ok (-1)
    ∧ (mirror0.handleRoomStatus (some joinAck)).map (fun q => q.1.connectionId) = Except.ok (-1) :=
  ⟨rfl, rfl, rfl⟩

/-- C7: a once handler fires exactly once on the first emission, but the
second emission of the same event throws a TypeError instead of completing:
`localEmit` calls `this.events[event][i].call` without a null check on the
slot the proxy cleared, so the event cannot safely recur after the firing. -/
theorem C7_once_semantics :
    (onceClient.localEmit "e").map Prod.snd = Except.ok [7]
    ∧ NetworkingAPI.localEmit (clientAfter (onceClient.localEmit "e")) "e" = Except.error "TypeError" :=
  ⟨rfl, rfl⟩

/-- C8 counterexample: a join request carrying a truthy non-string room code
makes the handler throw an uncaught `Error` ('Invalid room name') - the
condition propagates as a fault instead of being reported to the caller as an
error field in a reply. -/
theorem C8_invalid_name_counterexample :
    handleRoomJoin srv0 0 (RoomNameArg.other true) none = Except.error "Invalid room name" := rfl

/-- C8 (amended): for a join request carrying an invalid room code from an
unjoined connection, a falsy code is silently dropped (no reply, no state
change) and a truthy non-string code throws an uncaught `Error`; in neither
case is an error reply produced, and in neither case is any state modified. -/
theorem C8_invalid_room_name_amended (st : ServerState) (cid : Nat) (c : ConnState)
    (arg : RoomNameArg) (pwd : Option String)
    (h1 : st.conns.get? cid = some c) (h2 : c.connectionId = -1)
    (h3 : truthyArg arg = false ∨ isStringArg arg = false) :
    handleRoomJoin st cid arg pwd =
      if truthyArg arg then Except.error "Invalid room name" else Except.ok st := by
  unfold handleRoomJoin
  rw [connOf_eq h1, h2, if_neg (by simp)]
  by_cases ht : truthyArg arg = true
  · have hs : isStringArg arg = false := by
      rcases h3 with h | h
      · rw [ht] at h
        exact absurd h (by simp)
      · exact h
    rw [if_pos ht, if_pos ht]
    unfold Connection.joinRoom
    rw [connOf_eq h1, h2, if_neg (by simp)]
    rw [if_neg (by rw [ht, hs]; simp)]
    rfl
  · have ht' : truthyArg arg = false := by
      cases hb : truthyArg arg
      · rfl
      · exact absurd hb ht
    rw [if_neg (by rw [ht']; simp), if_neg (by rw [ht']; simp)]

/-- C8 witness: a truthy non-string code on a fresh connection takes the
fatal-throw branch of the amended statement. -/
theorem C8_invalid_room_name_witness :
    handleRoomJoin srv0 0 (RoomNameArg.other true) none =
      (if truthyArg (RoomNameArg.other true) then Except.error "Invalid room name" else Except.ok srv0) :=
  C8_invalid_room_name_amended srv0 0 connA (RoomNameArg.other true) none rfl rfl (Or.inr rfl)

/-- C9: for every registry state and every stream of random draws,
`generateEmptyRoomName` returns a code (the bounded search already succeeds
within the provided fuel, so the source's unbounded loop terminates) and that
code is not currently registered. The attempted digit length starts at 3 and
grows after every 100 failed draws, so once it exceeds the longest registered
key every draw is fresh. -/
theorem C9_generate_empty_room_name (rooms : List String) (draws : Nat → Nat) :
    ∃ name, Networking.generateEmptyRoomName rooms draws = some name ∧ name ∉ rooms := by
  unfold Networking.generateEmptyRoomName
  exact genAux_succeeds rooms draws (100 * maxCodeLen rooms) 0 (by omega)

/-- C10: a join against a room whose password is null/undefined succeeds for
every supplied password (string or null), and the caller is appended to the
room's member array. -/
theorem C10_open_room_admits_any_password (st : ServerState) (cid : Nat) (c : ConnState)
    (name : String) (r : RoomState) (pwd : Option String)
    (h1 : st.conns.get? cid = some c) (h2 : c.connectionId = -1)
    (h3 : name ≠ "") (h4 : st.lookupRoom name = some r)
    (h5 : r.password = none) :
    flagOf (Connection.joinRoom st cid (RoomNameArg.str name) pwd) = some true
    ∧ roomAfterJoin (Connection.joinRoom st cid (RoomNameArg.str name) pwd) name =
        some { r with clients := r.clients ++ [some cid] } := by
  have hp : ¬(r.password ≠ none ∧ r.password ≠ pwd) := by simp [h5]
  have hjoin := roomJoin_ok cid pwd h4 hp
  have ht : (truthyArg (RoomNameArg.str name) && isStringArg (RoomNameArg.str name)) = true := by
    simp [truthyArg, isStringArg, h3]
  constructor
  · unfold Connection.joinRoom
    rw [connOf_eq h1, h2, if_neg (by simp), if_pos ht]
    simp only [argString, h4, hjoin]
    rfl
  · unfold Connection.joinRoom
    rw [connOf_eq h1, h2, if_neg (by simp), if_pos ht]
    simp only [argString, h4, hjoin]
    simp only [roomAfterJoin]
    split
    · rw [lookupRoom_sendTo, lookupRoom_setConn, lookupRoom_roomEmit, lookupRoom_updateRoomState_self]
    · rw [lookupRoom_setConn, lookupRoom_roomEmit, lookupRoom_updateRoomState_self]

/-- C10 witness: a password supplied against the open room is simply ignored
and the join succeeds. -/
theorem C10_open_room_witness :
    flagOf (Connection.joinRoom srvOpen 1 (RoomNameArg.str "r") (some "y")) = some true :=
  (C10_open_room_admits_any_password srvOpen 1 ⟨-1, none, "b", []⟩ "r" ⟨none, 0, []⟩ (some "y")
    rfl rfl (by decide) rfl rfl).1
